import Mathlib

/-!
Verification of the presidio-anonymizer request-validation and policy-resolution
layer (`presidio_anonymizer/entities/anonymizer_request.py`), together with the
spec's Conflict Resolver.  Python dicts of heterogeneous shape are embedded as
structures with `Option` fields for possibly-missing keys; the anonymizers maps
are embedded as association lists in insertion order (Python dicts preserve
insertion order and never hold duplicate keys); Python exceptions become an
explicit `Except` error type.  In-place dict mutation performed by
`get_anonymizer_dto` is embedded by returning the updated request state
alongside the returned value.
-/

/-- A registered anonymizer class object (e.g. `Replace`, `Mask`).  The engine
treats these as opaque values; in Python a class object is always truthy, so a
registry hit is truthy exactly when the lookup returned a value. -/
structure AnonymizerImpl where
  name : String
deriving DecidableEq, Repr

/-- The ways `AnonymizerRequest` construction can terminate abnormally:
`InvalidParamException` with its message, an uncaught `AttributeError`
(from calling `.lower()` on `None`), or an uncaught `KeyError`
(from a `[]` access on a missing dict key). -/
inductive PyError where
  | invalidParam (msg : String)
  | attributeError
  | keyError (key : String)
deriving DecidableEq, Repr

/-- A raw analyzer-result dict from the request JSON: each key may be absent. -/
structure RawAnalyzerResult where
  start : Option Int
  endPos : Option Int
  score : Option Rat
  entity_type : Option String
deriving DecidableEq, Repr

/-- A validated analyzer result (a span).  `endPos` embeds the source's `end`
field (`end` is a Lean keyword).  Scores are carried but never interpreted by
the code under verification. -/
structure AnalyzerResult where
  start : Int
  endPos : Int
  score : Option Rat
  entity_type : String
deriving DecidableEq, Repr

/-- A raw anonymizer dto from the request JSON's `anonymizers` map: the
`type` key may be absent; all other keys (`new_value`, `masking_char`, ...)
are parameters the request layer never interprets, kept opaque. -/
structure RawAnonymizerDto where
  type : Option String
  params : List (String × String) := []
deriving DecidableEq, Repr

/-- An anonymizer dto as stored in the request's `_anonymizers` map (and as
`default_anonymizer`): the original `type` string, the resolved `anonymizer`
class written into the dict by `__handle_anonymizers` (or by `__init__` for
the default), the `entity_type` key written in place by `get_anonymizer_dto`
(absent until then), and the untouched parameter keys.  Such a dict always
holds at least `type` and `anonymizer`, hence is never empty, so a Python
truthiness test on it is exactly a `None` test on the lookup. -/
structure AnonymizerDto where
  type : String
  anonymizer : AnonymizerImpl
  entity_type : Option String := none
  params : List (String × String) := []
deriving DecidableEq, Repr

/-- The raw request payload `data`: a dict whose keys `text`,
`analyzer_results` and `anonymizers` may each be absent. -/
structure RawData where
  text : Option String
  analyzer_results : Option (List RawAnalyzerResult)
  anonymizers : Option (List (String × RawAnonymizerDto))
deriving DecidableEq, Repr

/-- The state of a constructed `AnonymizerRequest`: the external registry
`self.anonymizers`, the policy map `self._anonymizers`, the validated spans
`self._analysis_results`, the text, and `self.default_anonymizer`. -/
structure AnonymizerRequest where
  anonymizers : List (String × AnonymizerImpl)
  _anonymizers : List (String × AnonymizerDto)
  _analysis_results : List AnalyzerResult
  _text : String
  default_anonymizer : AnonymizerDto
deriving DecidableEq, Repr

/-- `d.get(k)` on an insertion-ordered dict embedded as an association list. -/
def lookupAssoc {α : Type} : List (String × α) → String → Option α
  | [], _ => none
  | (k, v) :: rest, key => if k = key then some v else lookupAssoc rest key

/-- `d[k] = v` on a dict that already holds key `k`: the entry keeps its
position, only its value changes.  (The embedding only assigns to existing
keys, matching the source.) -/
def updateAssoc {α : Type} : List (String × α) → String → α → List (String × α)
  | [], _, _ => []
  | (k, v) :: rest, key, nv =>
      if k = key then (k, nv) :: rest else (k, v) :: updateAssoc rest key nv

/-- Python `str.lower()` restricted to its ASCII behaviour (all kind names in
scope are ASCII).  Same function as mapping `Char.toLower` over the
characters. -/
def strLower (s : String) : String := ⟨s.data.map Char.toLower⟩

/-- Message of the `InvalidParamException` raised for an out-of-bounds span. -/
def positionErrMsg (s e : Int) (L : Nat) : String :=
  s!"Invalid analyzer result, start: {s} and end: {e}, while text length is only {L}."

/-- Message of the `InvalidParamException` raised for an unregistered kind. -/
def unknownKindMsg (t : String) : String :=
  s!"Invalid anonymizer class '{t}'."

/-- Modelled from the spec: construction of an `AnalyzerResult` from a raw
dict is in the `AnalyzerResult` entity class, which is not under `src/`.
Per §4.1 it fails with `MissingField` when the span omits `start`, `end` or
`entity_type`; the message format is the one the repository's tests expect
(`"Invalid input, analyzer result must contain start"`). -/
def AnalyzerResult.ofRaw (r : RawAnalyzerResult) : Except PyError AnalyzerResult :=
  match r.start with
  | none => .error (.invalidParam "Invalid input, analyzer result must contain start")
  | some s =>
    match r.endPos with
    | none => .error (.invalidParam "Invalid input, analyzer result must contain end")
    | some e =>
      match r.entity_type with
      | none => .error (.invalidParam "Invalid input, analyzer result must contain entity_type")
      | some lbl => .ok { start := s, endPos := e, score := r.score, entity_type := lbl }

/-- Modelled from the spec: `AnalyzerResult.validate_position_in_text` is not
under `src/`.  Per §4.1 it fails with `OutOfBounds` when `start < 0`,
`end > length(text)` or `start ≥ end`, reporting both submitted offsets and
the actual text length verbatim; accepted otherwise. -/
def AnalyzerResult.validate_position_in_text (a : AnalyzerResult) (text_len : Nat) :
    Except PyError Unit :=
  if a.start < 0 ∨ (text_len : Int) < a.endPos ∨ a.endPos ≤ a.start then
    .error (.invalidParam (positionErrMsg a.start a.endPos text_len))
  else
    .ok ()

/-- `AnonymizerRequest.__handle_text`: `data.get("text")` is falsy (absent or
the empty string) → `InvalidParamException`. -/
def handle_text (data : RawData) : Except PyError String :=
  match data.text with
  | none => .error (.invalidParam "Invalid input, text can not be empty")
  | some t =>
    if t = "" then .error (.invalidParam "Invalid input, text can not be empty")
    else .ok t

/-- The per-span loop body of `AnonymizerRequest.__handle_analyzer_results`:
convert each raw dict to an `AnalyzerResult`, validate its position, append. -/
def validateResults (text_len : Nat) :
    List RawAnalyzerResult → Except PyError (List AnalyzerResult)
  | [] => .ok []
  | r :: rest =>
    match AnalyzerResult.ofRaw r with
    | .error e => .error e
    | .ok a =>
      match a.validate_position_in_text text_len with
      | .error e => .error e
      | .ok _ =>
        match validateResults text_len rest with
        | .error e => .error e
        | .ok tail => .ok (a :: tail)

/-- `AnonymizerRequest.__handle_analyzer_results`: a falsy
`data.get("analyzer_results")` (absent or empty) → `InvalidParamException`;
otherwise each span is validated against `len(data.get("text"))` (the text
was already validated non-empty when this runs, so `getD ""` never fires). -/
def handle_analyzer_results (data : RawData) : Except PyError (List AnalyzerResult) :=
  match data.analyzer_results with
  | none => .error (.invalidParam "Invalid input, analyzer results can not be empty")
  | some [] => .error (.invalidParam "Invalid input, analyzer results can not be empty")
  | some rs => validateResults (data.text.getD "").length rs

/-- `AnonymizerRequest.__get_anonymizer`: `anonymizer.get("type")` is `None`
when the key is absent, so `.lower()` raises an uncaught `AttributeError`;
otherwise the lowercased kind is looked up in the external registry and a
falsy hit (a missing key — class objects are truthy) raises
`InvalidParamException`. -/
def get_anonymizer (registry : List (String × AnonymizerImpl)) (dto : RawAnonymizerDto) :
    Except PyError AnonymizerImpl :=
  match dto.type with
  | none => .error .attributeError
  | some ty =>
    let t := strLower ty
    match lookupAssoc registry t with
    | none => .error (.invalidParam (unknownKindMsg t))
    | some a => .ok a

/-- The per-entry loop of `AnonymizerRequest.__handle_anonymizers`: resolve
each dto's class, write it into the dto under `"anonymizer"`, and store the
dto in `self._anonymizers` under its key, in insertion order.  If
`get_anonymizer` succeeded, `dto.type` is present, so `getD ""` never
fires. -/
def handle_anonymizers_list (registry : List (String × AnonymizerImpl)) :
    List (String × RawAnonymizerDto) → Except PyError (List (String × AnonymizerDto))
  | [] => .ok []
  | (key, dto) :: rest =>
    match get_anonymizer registry dto with
    | .error e => .error e
    | .ok a =>
      match handle_anonymizers_list registry rest with
      | .error e => .error e
      | .ok tail =>
          .ok ((key, { type := dto.type.getD "", anonymizer := a,
                       entity_type := none, params := dto.params }) :: tail)

/-- `AnonymizerRequest.__handle_anonymizers`: skipped entirely when
`data.get("anonymizers")` is `None`. -/
def handle_anonymizers (registry : List (String × AnonymizerImpl)) :
    Option (List (String × RawAnonymizerDto)) →
    Except PyError (List (String × AnonymizerDto))
  | none => .ok []
  | some entries => handle_anonymizers_list registry entries

/-- `AnonymizerRequest.__init__`: validate text, then analyzer results, then
anonymizers (in that order — the first failure propagates), and only then
build `self.default_anonymizer` from `self.anonymizers["replace"]`, a bracket
access that raises an uncaught `KeyError` when the registry lacks
`"replace"`. -/
def AnonymizerRequest.construct (data : RawData)
    (registry : List (String × AnonymizerImpl)) : Except PyError AnonymizerRequest :=
  match handle_text data with
  | .error e => .error e
  | .ok text =>
    match handle_analyzer_results data with
    | .error e => .error e
    | .ok results =>
      match handle_anonymizers registry data.anonymizers with
      | .error e => .error e
      | .ok configs =>
        match lookupAssoc registry "replace" with
        | none => .error (.keyError "replace")
        | some a =>
            .ok { anonymizers := registry,
                  _anonymizers := configs,
                  _analysis_results := results,
                  _text := text,
                  default_anonymizer :=
                    { type := "replace", anonymizer := a,
                      entity_type := none, params := [] } }

/-- `AnonymizerRequest.get_anonymizer_dto`: look up the exact label, fall back
to `"DEFAULT"`, fall back to `self.default_anonymizer`; then write the queried
label into the chosen dto under `"entity_type"` — an in-place dict mutation,
embedded by also returning the updated request state.  Stored dtos are
non-empty dicts, so the source's truthiness tests are `None` tests. -/
def AnonymizerRequest.get_anonymizer_dto (req : AnonymizerRequest) (entity_type : String) :
    AnonymizerDto × AnonymizerRequest :=
  match lookupAssoc req._anonymizers entity_type with
  | some dto =>
      let d := { dto with entity_type := some entity_type }
      (d, { req with _anonymizers := updateAssoc req._anonymizers entity_type d })
  | none =>
    match lookupAssoc req._anonymizers "DEFAULT" with
    | some dto =>
        let d := { dto with entity_type := some entity_type }
        (d, { req with _anonymizers := updateAssoc req._anonymizers "DEFAULT" d })
    | none =>
        let d := { req.default_anonymizer with entity_type := some entity_type }
        (d, { req with default_anonymizer := d })

/-- Two spans overlap when their `[start, end)` ranges intersect. -/
def overlapsSpan (a b : AnalyzerResult) : Prop :=
  a.start < b.endPos ∧ b.start < a.endPos

instance (a b : AnalyzerResult) : Decidable (overlapsSpan a b) :=
  inferInstanceAs (Decidable (a.start < b.endPos ∧ b.start < a.endPos))

/-- Modelled from the spec: the Conflict Resolver's sort order (§4.3) —
primarily descending `end`, ties broken by ascending `start`.  The resolver
itself (`AnalyzerResults.to_sorted_unique_results` and its use by the engine)
is not under `src/`. -/
def spanOrder (a b : AnalyzerResult) : Prop :=
  b.endPos < a.endPos ∨ (a.endPos = b.endPos ∧ a.start ≤ b.start)

instance : DecidableRel spanOrder := fun a b =>
  inferInstanceAs (Decidable (b.endPos < a.endPos ∨ (a.endPos = b.endPos ∧ a.start ≤ b.start)))

instance : IsTotal AnalyzerResult spanOrder :=
  ⟨fun a b => by unfold spanOrder; omega⟩

instance : IsTrans AnalyzerResult spanOrder :=
  ⟨fun a b c hab hbc => by unfold spanOrder at *; omega⟩

/-- Modelled from the spec: the walk of §4.3 step 2 — traverse the sorted
sequence, track the spans already accepted (`claimed`), and drop any span
whose range intersects an already-claimed range (first-accepted-wins).  Exact
duplicates (§4.3 step 3) are subsumed: a duplicate overlaps the accepted
copy and is dropped. -/
def walkResolve (claimed : List AnalyzerResult) :
    List AnalyzerResult → List AnalyzerResult
  | [] => []
  | s :: rest =>
    if ∃ c ∈ claimed, overlapsSpan c s then walkResolve claimed rest
    else s :: walkResolve (s :: claimed) rest

/-- Modelled from the spec: the Conflict Resolver (§4.3) — sort by descending
`end` (ascending `start` on ties), then drop overlapping spans,
first-accepted-wins.  The implementation is not under `src/`. -/
def to_sorted_unique_results (l : List AnalyzerResult) : List AnalyzerResult :=
  walkResolve [] (List.insertionSort spanOrder l)

theorem lookupAssoc_updateAssoc_same {α : Type} (m : List (String × α)) (k : String) (v w : α)
    (h : lookupAssoc m k = some w) : lookupAssoc (updateAssoc m k v) k = some v := by
  induction m with
  | nil => simp [lookupAssoc] at h
  | cons p rest ih =>
    obtain ⟨k0, v0⟩ := p
    by_cases hk : k0 = k
    · subst hk; simp [lookupAssoc, updateAssoc]
    · simp only [lookupAssoc, updateAssoc, if_neg hk] at h ⊢
      exact ih h

theorem lookupAssoc_updateAssoc_ne {α : Type} (m : List (String × α)) (k k' : String) (v : α)
    (h : k' ≠ k) : lookupAssoc (updateAssoc m k v) k' = lookupAssoc m k' := by
  induction m with
  | nil => simp [updateAssoc]
  | cons p rest ih =>
    obtain ⟨k0, v0⟩ := p
    by_cases hk : k0 = k
    · subst hk
      have hk' : ¬ k0 = k' := fun hh => h (hh.symm)
      simp [lookupAssoc, updateAssoc, hk']
    · by_cases hk' : k0 = k'
      · simp [lookupAssoc, updateAssoc, hk, hk', h]
      · simp [lookupAssoc, updateAssoc, hk, hk', ih]

theorem walkResolve_sublist (claimed : List AnalyzerResult) (l : List AnalyzerResult) :
    List.Sublist (walkResolve claimed l) l := by
  induction l generalizing claimed with
  | nil => simp [walkResolve]
  | cons s rest ih =>
    by_cases h : ∃ c ∈ claimed, overlapsSpan c s
    · simp only [walkResolve, if_pos h]
      exact (ih claimed).cons s
    · simp only [walkResolve, if_neg h]
      exact (ih (s :: claimed)).cons₂ s

theorem walkResolve_not_overlaps (claimed : List AnalyzerResult) (l : List AnalyzerResult) :
    ∀ x ∈ walkResolve claimed l, ∀ c ∈ claimed, ¬ overlapsSpan c x := by
  induction l generalizing claimed with
  | nil => simp [walkResolve]
  | cons s rest ih =>
    by_cases h : ∃ c ∈ claimed, overlapsSpan c s
    · simp only [walkResolve, if_pos h]
      exact ih claimed
    · simp only [walkResolve, if_neg h]
      intro x hx c hc
      cases List.mem_cons.mp hx with
      | inl hxs =>
        subst hxs
        push_neg at h
        exact h c hc
      | inr hx' =>
        exact ih (s :: claimed) x hx' c (List.mem_cons_of_mem s hc)

theorem walkResolve_pairwise (claimed : List AnalyzerResult) (l : List AnalyzerResult) :
    (walkResolve claimed l).Pairwise (fun a b => ¬ overlapsSpan a b) := by
  induction l generalizing claimed with
  | nil => simp [walkResolve]
  | cons s rest ih =>
    by_cases h : ∃ c ∈ claimed, overlapsSpan c s
    · simp only [walkResolve, if_pos h]
      exact ih claimed
    · simp only [walkResolve, if_neg h]
      refine List.Pairwise.cons ?_ (ih (s :: claimed))
      intro b hb
      exact walkResolve_not_overlaps (s :: claimed) rest b hb s (List.mem_cons_self s _)

/-- C8: the Conflict Resolver's output consists of pairwise non-overlapping
spans — for every pair of accepted spans the `[start, end)` ranges are
disjoint — and the sequence is ordered by descending `end` offset. -/
theorem claim_C8_resolved_span_set (l : List AnalyzerResult) :
    (to_sorted_unique_results l).Pairwise
        (fun a b => a.endPos ≤ b.start ∨ b.endPos ≤ a.start) ∧
    (to_sorted_unique_results l).Pairwise (fun a b => b.endPos ≤ a.endPos) := by
  constructor
  · refine (walkResolve_pairwise [] _).imp ?_
    intro a b h
    unfold overlapsSpan at h
    omega
  · have hs : List.Pairwise spanOrder (List.insertionSort spanOrder l) :=
      List.sorted_insertionSort spanOrder l
    refine (hs.sublist (walkResolve_sublist _ _)).imp ?_
    intro a b h
    unfold spanOrder at h
    omega

/-- C7: a request whose text field is absent or the empty string fails
construction with the `EmptyText` error carrying the message
`"Invalid input, text can not be empty"`, whatever the spans and policies
hold; no request value is produced, so no span or policy processing
takes place. -/
theorem claim_C7_empty_text (data : RawData) (registry : List (String × AnonymizerImpl))
    (h : data.text = none ∨ data.text = some "") :
    AnonymizerRequest.construct data registry =
      .error (.invalidParam "Invalid input, text can not be empty") := by
  have ht : handle_text data =
      .error (.invalidParam "Invalid input, text can not be empty") := by
    rcases h with h | h <;> simp [handle_text, h]
  simp [AnonymizerRequest.construct, ht]

theorem claim_C7_witness :
    AnonymizerRequest.construct
        { text := none,
          analyzer_results := some [{ start := some 0, endPos := some 1, score := none,
                                      entity_type := some "NAME" }],
          anonymizers := none }
        [("replace", { name := "Replace" })] =
      .error (.invalidParam "Invalid input, text can not be empty") :=
  claim_C7_empty_text _ _ (Or.inl rfl)

/-- C2 counterexample: a request whose spans field is the empty sequence and
whose text field is absent fails with the `EmptyText` message, not the
`EmptySpans` one — refuting "fails with the `EmptySpans` error regardless of
whether the text field is valid, absent, or empty". -/
theorem claim_C2_counterexample :
    ({ text := none, analyzer_results := some [], anonymizers := none } : RawData).analyzer_results
        = some [] ∧
    AnonymizerRequest.construct
        { text := none, analyzer_results := some [], anonymizers := none }
        [("replace", { name := "Replace" })] =
      .error (.invalidParam "Invalid input, text can not be empty") ∧
    AnonymizerRequest.construct
        { text := none, analyzer_results := some [], anonymizers := none }
        [("replace", { name := "Replace" })] ≠
      .error (.invalidParam "Invalid input, analyzer results can not be empty") := by
  exact ⟨rfl, rfl, fun h => absurd (Except.error.inj h) (by decide)⟩

/-- C2 (amended): for every request whose spans field is absent or an empty
sequence and whose text field is present and non-empty, construction fails
with the `EmptySpans` error; when the text field is also absent or empty, the
`EmptyText` error takes precedence (text is validated first). -/
theorem claim_C2_empty_spans (data : RawData) (registry : List (String × AnonymizerImpl))
    (t : String) (htext : data.text = some t) (hne : t ≠ "")
    (hspans : data.analyzer_results = none ∨ data.analyzer_results = some []) :
    AnonymizerRequest.construct data registry =
      .error (.invalidParam "Invalid input, analyzer results can not be empty") := by
  have ht : handle_text data = .ok t := by simp [handle_text, htext, hne]
  have hr : handle_analyzer_results data =
      .error (.invalidParam "Invalid input, analyzer results can not be empty") := by
    rcases hspans with h | h <;> simp [handle_analyzer_results, h]
  simp [AnonymizerRequest.construct, ht, hr]

theorem claim_C2_witness :
    AnonymizerRequest.construct
        { text := some "hello world", analyzer_results := some [], anonymizers := none }
        [("replace", { name := "Replace" })] =
      .error (.invalidParam "Invalid input, analyzer results can not be empty") :=
  claim_C2_empty_spans _ _ "hello world" rfl (by decide) (Or.inr rfl)

/-- C10: the constructor unconditionally reads the `"replace"` key of the
external registry after input validation, so whenever validation succeeds and
the registry lacks `"replace"`, construction raises an uncaught `KeyError` —
even when every span has a specific policy and the default would never be
needed. -/
theorem claim_C10_replace_required (data : RawData)
    (registry : List (String × AnonymizerImpl))
    (htext : ∃ t, handle_text data = .ok t)
    (hres : ∃ rs, handle_analyzer_results data = .ok rs)
    (hanon : ∃ cfgs, handle_anonymizers registry data.anonymizers = .ok cfgs)
    (hrep : lookupAssoc registry "replace" = none) :
    AnonymizerRequest.construct data registry = .error (.keyError "replace") := by
  obtain ⟨t, ht⟩ := htext
  obtain ⟨rs, hr⟩ := hres
  obtain ⟨cfgs, ha⟩ := hanon
  simp [AnonymizerRequest.construct, ht, hr, ha, hrep]

theorem claim_C10_witness :
    AnonymizerRequest.construct
        { text := some "ab",
          analyzer_results := some [{ start := some 0, endPos := some 1, score := none,
                                      entity_type := some "X" }],
          anonymizers := some [("X", { type := some "mask", params := [] })] }
        [("mask", { name := "Mask" })] =
      .error (.keyError "replace") :=
  claim_C10_replace_required _ _ ⟨"ab", rfl⟩ ⟨_, rfl⟩ ⟨_, rfl⟩ rfl

theorem handle_anonymizers_list_missing_type (registry : List (String × AnonymizerImpl))
    (entries : List (String × RawAnonymizerDto))
    (hreg : ∀ p ∈ entries, ∀ ty, p.2.type = some ty →
      (lookupAssoc registry (strLower ty)).isSome = true)
    (hmiss : ∃ p ∈ entries, p.2.type = none) :
    handle_anonymizers_list registry entries = .error .attributeError := by
  induction entries with
  | nil => simp at hmiss
  | cons p rest ih =>
    obtain ⟨key, dto⟩ := p
    cases hty : dto.type with
    | none => simp [handle_anonymizers_list, get_anonymizer, hty]
    | some ty =>
      have hr := hreg (key, dto) (List.mem_cons_self _ _) ty hty
      obtain ⟨a, ha⟩ := Option.isSome_iff_exists.mp hr
      have hrest : handle_anonymizers_list registry rest = .error .attributeError := by
        apply ih
        · intro q hq ty' hty'
          exact hreg q (List.mem_cons_of_mem _ hq) ty' hty'
        · rcases hmiss with ⟨q, hq, hqt⟩
          cases List.mem_cons.mp hq with
          | inl h =>
            subst h
            simp [hty] at hqt
          | inr h => exact ⟨q, h, hqt⟩
      simp [handle_anonymizers_list, get_anonymizer, hty, ha, hrest]

/-- C9: when a configured policy in the anonymizers map omits its `type` key
(and the entries that do carry a `type` are all registered, so no earlier
failure preempts it), request construction on otherwise-valid input raises an
uncaught `AttributeError` — `.lower()` on `None` — rather than a structured
`InvalidParamException` of the error taxonomy. -/
theorem claim_C9_missing_type_attribute_error (data : RawData)
    (registry : List (String × AnonymizerImpl))
    (entries : List (String × RawAnonymizerDto))
    (hdata : data.anonymizers = some entries)
    (htext : ∃ t, handle_text data = .ok t)
    (hres : ∃ rs, handle_analyzer_results data = .ok rs)
    (hreg : ∀ p ∈ entries, ∀ ty, p.2.type = some ty →
      (lookupAssoc registry (strLower ty)).isSome = true)
    (hmiss : ∃ p ∈ entries, p.2.type = none) :
    AnonymizerRequest.construct data registry = .error .attributeError := by
  obtain ⟨t, ht⟩ := htext
  obtain ⟨rs, hr⟩ := hres
  have ha : handle_anonymizers registry data.anonymizers = .error .attributeError := by
    rw [hdata]
    exact handle_anonymizers_list_missing_type registry entries hreg hmiss
  simp [AnonymizerRequest.construct, ht, hr, ha]

theorem claim_C9_witness :
    AnonymizerRequest.construct
        { text := some "ab",
          analyzer_results := some [{ start := some 0, endPos := some 1, score := none,
                                      entity_type := some "X" }],
          anonymizers := some [("X", { type := none, params := [] })] }
        [("replace", { name := "Replace" })] =
      .error .attributeError :=
  claim_C9_missing_type_attribute_error _ _ _ rfl ⟨"ab", rfl⟩ ⟨_, rfl⟩
    (by
      intro p hp ty hty
      simp only [List.mem_singleton] at hp
      subst hp
      simp at hty)
    ⟨("X", { type := none, params := [] }), by simp, rfl⟩

theorem handle_anonymizers_list_ok_forall (registry : List (String × AnonymizerImpl))
    (entries : List (String × RawAnonymizerDto))
    (h : ∃ cfgs, handle_anonymizers_list registry entries = .ok cfgs) :
    ∀ p ∈ entries, ∃ ty0, p.2.type = some ty0 ∧
      (lookupAssoc registry (strLower ty0)).isSome = true := by
  induction entries with
  | nil => simp
  | cons p rest ih =>
    obtain ⟨key, dto⟩ := p
    obtain ⟨cfgs, hc⟩ := h
    cases hg : get_anonymizer registry dto with
    | error e => simp [handle_anonymizers_list, hg] at hc
    | ok a =>
      cases hrest : handle_anonymizers_list registry rest with
      | error e => simp [handle_anonymizers_list, hg, hrest] at hc
      | ok tail =>
        intro q hq
        cases List.mem_cons.mp hq with
        | inl hh =>
          subst hh
          cases hty : dto.type with
          | none => simp [get_anonymizer, hty] at hg
          | some ty0 =>
            cases hl : lookupAssoc registry (strLower ty0) with
            | none => simp [get_anonymizer, hty, hl] at hg
            | some b => exact ⟨ty0, rfl, by simp [hl]⟩
        | inr hh => exact ih ⟨tail, hrest⟩ q hh

theorem handle_anonymizers_list_ok_of_forall (registry : List (String × AnonymizerImpl))
    (entries : List (String × RawAnonymizerDto))
    (h : ∀ p ∈ entries, ∃ ty0, p.2.type = some ty0 ∧
      (lookupAssoc registry (strLower ty0)).isSome = true) :
    ∃ cfgs, handle_anonymizers_list registry entries = .ok cfgs := by
  induction entries with
  | nil => exact ⟨[], rfl⟩
  | cons p rest ih =>
    obtain ⟨key, dto⟩ := p
    obtain ⟨ty0, hty, hsome⟩ := h (key, dto) (List.mem_cons_self _ _)
    obtain ⟨a, ha⟩ := Option.isSome_iff_exists.mp hsome
    obtain ⟨tail, htail⟩ := ih (fun q hq => h q (List.mem_cons_of_mem _ hq))
    have hty' : dto.type = some ty0 := hty
    have hg : get_anonymizer registry dto = .ok a := by
      simp [get_anonymizer, hty', ha]
    exact ⟨(key, { type := dto.type.getD "", anonymizer := a, entity_type := none,
                   params := dto.params }) :: tail,
      by simp [handle_anonymizers_list, hg, htail]⟩

/-- C4: a configured policy's declared kind string is normalized to lowercase
before the registry lookup (kinds equal up to case resolve identically); the
per-policy resolution succeeds exactly when the lowercased kind is registered
and otherwise fails with the `UnknownPolicyKind` message citing the lowercased
kind; and processing of the whole anonymizers map succeeds exactly when every
configured entry carries a kind whose lowercase form is registered. -/
theorem claim_C4_kind_normalization (registry : List (String × AnonymizerImpl))
    (ty : String) (ps : List (String × String)) :
    (∀ ty', strLower ty = strLower ty' →
        get_anonymizer registry { type := some ty, params := ps } =
          get_anonymizer registry { type := some ty', params := ps }) ∧
    ((∃ a, get_anonymizer registry { type := some ty, params := ps } = .ok a) ↔
        (lookupAssoc registry (strLower ty)).isSome = true) ∧
    (lookupAssoc registry (strLower ty) = none →
        get_anonymizer registry { type := some ty, params := ps } =
          .error (.invalidParam (unknownKindMsg (strLower ty)))) ∧
    (∀ entries, (∃ cfgs, handle_anonymizers_list registry entries = .ok cfgs) →
        ∀ p ∈ entries, ∃ ty0, p.2.type = some ty0 ∧
          (lookupAssoc registry (strLower ty0)).isSome = true) ∧
    (∀ entries, (∀ p ∈ entries, ∃ ty0, p.2.type = some ty0 ∧
          (lookupAssoc registry (strLower ty0)).isSome = true) →
        ∃ cfgs, handle_anonymizers_list registry entries = .ok cfgs) := by
  refine ⟨?_, ?_, ?_, handle_anonymizers_list_ok_forall registry,
    handle_anonymizers_list_ok_of_forall registry⟩
  · intro ty' h
    simp only [get_anonymizer]
    rw [h]
  · cases hl : lookupAssoc registry (strLower ty) <;>
      simp [get_anonymizer, hl]
  · intro h
    simp [get_anonymizer, h]

theorem claim_C4_witness :
    get_anonymizer [("replace", { name := "Replace" })]
        { type := some "Replace", params := [] } =
      get_anonymizer [("replace", { name := "Replace" })]
        { type := some "rePLACE", params := [] } ∧
    (∃ a, get_anonymizer [("replace", { name := "Replace" })]
        { type := some "Replace", params := [] } = .ok a) ∧
    get_anonymizer [("replace", { name := "Replace" })]
        { type := some "Mask", params := [] } =
      .error (.invalidParam (unknownKindMsg "mask")) :=
  ⟨(claim_C4_kind_normalization [("replace", { name := "Replace" })] "Replace" []).1
      "rePLACE" (by decide),
   (claim_C4_kind_normalization [("replace", { name := "Replace" })] "Replace" []).2.1.mpr
      (by decide),
   (claim_C4_kind_normalization [("replace", { name := "Replace" })] "Mask" []).2.2.1
      (by decide)⟩

/-- C6: policy resolution is idempotent — resolving the same label a second
time, from the state the first resolution produced, returns the same
anonymizer dto value. -/
theorem claim_C6_resolution_idempotent (req : AnonymizerRequest) (label : String) :
    (((req.get_anonymizer_dto label).2).get_anonymizer_dto label).1 =
      (req.get_anonymizer_dto label).1 := by
  cases h1 : lookupAssoc req._anonymizers label with
  | some dto =>
    have h2 : lookupAssoc
        (updateAssoc req._anonymizers label { dto with entity_type := some label }) label =
        some { dto with entity_type := some label } :=
      lookupAssoc_updateAssoc_same _ _ _ _ h1
    simp [AnonymizerRequest.get_anonymizer_dto, h1, h2]
  | none =>
    cases h2 : lookupAssoc req._anonymizers "DEFAULT" with
    | some dto =>
      have hne : label ≠ "DEFAULT" := by
        intro h
        rw [h] at h1
        rw [h1] at h2
        cases h2
      have h3 : lookupAssoc
          (updateAssoc req._anonymizers "DEFAULT" { dto with entity_type := some label })
          label = none := by
        rw [lookupAssoc_updateAssoc_ne _ _ _ _ hne]
        exact h1
      have h4 : lookupAssoc
          (updateAssoc req._anonymizers "DEFAULT" { dto with entity_type := some label })
          "DEFAULT" = some { dto with entity_type := some label } :=
        lookupAssoc_updateAssoc_same _ _ _ _ h2
      simp [AnonymizerRequest.get_anonymizer_dto, h1, h2, h3, h4]
    | none =>
      simp [AnonymizerRequest.get_anonymizer_dto, h1, h2]

/-- A concrete request state holding one stored policy, used to exhibit the
in-place mutation performed by policy resolution. -/
def reqC5 : AnonymizerRequest :=
  { anonymizers := [("replace", { name := "Replace" })],
    _anonymizers := [("PHONE_NUMBER",
        { type := "mask", anonymizer := { name := "Mask" },
          entity_type := none, params := [("masking_char", "*")] })],
    _analysis_results := [],
    _text := "hi",
    default_anonymizer := { type := "replace", anonymizer := { name := "Replace" },
                            entity_type := none, params := [] } }

/-- C5 counterexample: resolving a label via `get_anonymizer_dto` mutates the
policy value stored in the request's policy map — the stored dto gains the
`entity_type` key — so the stored policies are not immutable under engine
operations. -/
theorem claim_C5_counterexample :
    (reqC5.get_anonymizer_dto "PHONE_NUMBER").2._anonymizers ≠ reqC5._anonymizers := by
  decide

/-- The policy content a caller supplies: the kind, the resolved
implementation, and the parameter keys — everything except the
`entity_type` tag that resolution writes. -/
def dtoContent (d : AnonymizerDto) : String × AnonymizerImpl × List (String × String) :=
  (d.type, d.anonymizer, d.params)

theorem map_dtoContent_updateAssoc (m : List (String × AnonymizerDto)) (k : String)
    (v w : AnonymizerDto) (h : lookupAssoc m k = some v)
    (hw : dtoContent w = dtoContent v) :
    (updateAssoc m k w).map (fun p => (p.1, dtoContent p.2)) =
      m.map (fun p => (p.1, dtoContent p.2)) := by
  induction m with
  | nil => rfl
  | cons p rest ih =>
    obtain ⟨k0, v0⟩ := p
    by_cases hk : k0 = k
    · subst hk
      simp only [lookupAssoc, if_pos rfl] at h
      cases h
      simp [updateAssoc, hw]
    · simp only [lookupAssoc, if_neg hk] at h
      simp [updateAssoc, hk, ih h]

/-- C5 (amended): policy resolution preserves the caller-supplied content of
every stored policy — the kind, the implementation, and the parameters of
each entry of the policy map, and of the built-in default, are unchanged —
but it does mutate the resolved policy value in place by writing the queried
label into its `entity_type` field, so the stored values are not literally
immutable. -/
theorem claim_C5_policy_content_preserved (req : AnonymizerRequest) (label : String) :
    ((req.get_anonymizer_dto label).2._anonymizers.map (fun p => (p.1, dtoContent p.2)) =
      req._anonymizers.map (fun p => (p.1, dtoContent p.2))) ∧
    dtoContent (req.get_anonymizer_dto label).2.default_anonymizer =
      dtoContent req.default_anonymizer ∧
    (req.get_anonymizer_dto label).1.entity_type = some label := by
  cases h1 : lookupAssoc req._anonymizers label with
  | some dto =>
    refine ⟨?_, ?_, ?_⟩ <;> simp [AnonymizerRequest.get_anonymizer_dto, h1]
    exact map_dtoContent_updateAssoc _ _ dto _ h1 rfl
  | none =>
    cases h2 : lookupAssoc req._anonymizers "DEFAULT" with
    | some dto =>
      refine ⟨?_, ?_, ?_⟩ <;> simp [AnonymizerRequest.get_anonymizer_dto, h1, h2]
      exact map_dtoContent_updateAssoc _ _ dto _ h2 rfl
    | none =>
      refine ⟨?_, ?_, ?_⟩ <;> simp [AnonymizerRequest.get_anonymizer_dto, h1, h2, dtoContent]

/-- C1: policy resolution follows the three-tier fallback — the exact-label
entry of the policy map when present, otherwise the map's reserved `DEFAULT`
entry when present, otherwise the built-in default of kind `replace` — and
the returned policy always carries the queried label in its `entity_type`
field; in particular, on a request constructed with no policies map at all,
every label resolves to the built-in default replace policy. -/
theorem claim_C1_policy_fallback (data : RawData)
    (registry : List (String × AnonymizerImpl)) (req : AnonymizerRequest)
    (hreq : AnonymizerRequest.construct data registry = .ok req) (label : String) :
    ((req.get_anonymizer_dto label).1.entity_type = some label) ∧
    (∀ v, lookupAssoc req._anonymizers label = some v →
        (req.get_anonymizer_dto label).1 = { v with entity_type := some label }) ∧
    (lookupAssoc req._anonymizers label = none →
        ∀ v, lookupAssoc req._anonymizers "DEFAULT" = some v →
          (req.get_anonymizer_dto label).1 = { v with entity_type := some label }) ∧
    (lookupAssoc req._anonymizers label = none →
        lookupAssoc req._anonymizers "DEFAULT" = none →
          (req.get_anonymizer_dto label).1 =
            { req.default_anonymizer with entity_type := some label } ∧
          (req.get_anonymizer_dto label).1.type = "replace") ∧
    (data.anonymizers = none →
        (req.get_anonymizer_dto label).1 =
          { req.default_anonymizer with entity_type := some label } ∧
        (req.get_anonymizer_dto label).1.type = "replace") := by
  have hda : req.default_anonymizer.type = "replace" ∧
      (data.anonymizers = none → req._anonymizers = []) := by
    unfold AnonymizerRequest.construct at hreq
    cases ht : handle_text data <;> rw [ht] at hreq
    case error => cases hreq
    case ok t =>
    cases hr : handle_analyzer_results data <;> rw [hr] at hreq
    case error => cases hreq
    case ok rs =>
    cases hc : handle_anonymizers registry data.anonymizers <;> rw [hc] at hreq
    case error => cases hreq
    case ok cfgs =>
    cases hrep : lookupAssoc registry "replace" <;> rw [hrep] at hreq
    case none => cases hreq
    case some a =>
    cases hreq
    refine ⟨rfl, fun hnone => ?_⟩
    rw [hnone] at hc
    cases hc
    rfl
  obtain ⟨hdef, hnil⟩ := hda
  refine ⟨?_, ?_, ?_, ?_, ?_⟩
  · cases h1 : lookupAssoc req._anonymizers label with
    | some dto => simp [AnonymizerRequest.get_anonymizer_dto, h1]
    | none =>
      cases h2 : lookupAssoc req._anonymizers "DEFAULT" with
      | some dto => simp [AnonymizerRequest.get_anonymizer_dto, h1, h2]
      | none => simp [AnonymizerRequest.get_anonymizer_dto, h1, h2]
  · intro v hv
    simp [AnonymizerRequest.get_anonymizer_dto, hv]
  · intro h1 v h2
    simp [AnonymizerRequest.get_anonymizer_dto, h1, h2]
  · intro h1 h2
    refine ⟨?_, ?_⟩ <;> simp [AnonymizerRequest.get_anonymizer_dto, h1, h2, hdef]
  · intro hnone
    have h0 : req._anonymizers = [] := hnil hnone
    refine ⟨?_, ?_⟩ <;> simp [AnonymizerRequest.get_anonymizer_dto, h0, lookupAssoc, hdef]

/-- The request payload of the C1 witness: valid text and spans, the
policies map entirely absent. -/
def dataC1 : RawData :=
  { text := some "ab",
    analyzer_results := some [{ start := some 0, endPos := some 1, score := none,
                                entity_type := some "NAME" }],
    anonymizers := none }

/-- The registry of the C1 witness. -/
def regC1 : List (String × AnonymizerImpl) := [("replace", { name := "Replace" })]

/-- The request that `AnonymizerRequest.construct dataC1 regC1` produces. -/
def reqC1 : AnonymizerRequest :=
  { anonymizers := regC1,
    _anonymizers := [],
    _analysis_results := [{ start := 0, endPos := 1, score := none, entity_type := "NAME" }],
    _text := "ab",
    default_anonymizer := { type := "replace", anonymizer := { name := "Replace" },
                            entity_type := none, params := [] } }

theorem claim_C1_witness :
    (reqC1.get_anonymizer_dto "NAME").1 =
      { reqC1.default_anonymizer with entity_type := some "NAME" } ∧
    (reqC1.get_anonymizer_dto "NAME").1.type = "replace" :=
  (claim_C1_policy_fallback dataC1 regC1 reqC1 rfl "NAME").2.2.2.2 rfl

/-- C3: for a single-span request with valid text, construction fails with the
`OutOfBounds` error exactly outside `0 ≤ start < end ≤ length(text)` — when
`start < 0`, `end > length(text)` or `start ≥ end` — and the error message
reports both submitted offsets and the actual text length verbatim in the
form `"Invalid analyzer result, start: S and end: E, while text length is
only L."`; conversely, every span with `0 ≤ start < end ≤ length(text)` is
accepted. -/
theorem claim_C3_out_of_bounds (t : String) (s e : Int) (sc : Option Rat)
    (lbl : String) (registry : List (String × AnonymizerImpl))
    (hne : t ≠ "") (hrep : (lookupAssoc registry "replace").isSome = true) :
    (¬ (0 ≤ s ∧ s < e ∧ e ≤ (t.length : Int)) →
        AnonymizerRequest.construct
            { text := some t,
              analyzer_results := some [{ start := some s, endPos := some e, score := sc,
                                          entity_type := some lbl }],
              anonymizers := none } registry =
          .error (.invalidParam (positionErrMsg s e t.length))) ∧
    ((0 ≤ s ∧ s < e ∧ e ≤ (t.length : Int)) →
        ∃ req, AnonymizerRequest.construct
            { text := some t,
              analyzer_results := some [{ start := some s, endPos := some e, score := sc,
                                          entity_type := some lbl }],
              anonymizers := none } registry = .ok req) ∧
    positionErrMsg 5 12 11 =
      "Invalid analyzer result, start: 5 and end: 12, while text length is only 11." := by
  have ht : handle_text
      ({ text := some t,
         analyzer_results := some [{ start := some s, endPos := some e, score := sc,
                                     entity_type := some lbl }],
         anonymizers := none } : RawData) = .ok t := by
    simp [handle_text, hne]
  refine ⟨?_, ?_, rfl⟩
  · intro h
    have hC : s < 0 ∨ (t.length : Int) < e ∨ e ≤ s := by omega
    have hr : handle_analyzer_results
        ({ text := some t,
           analyzer_results := some [{ start := some s, endPos := some e, score := sc,
                                       entity_type := some lbl }],
           anonymizers := none } : RawData) =
        .error (.invalidParam (positionErrMsg s e t.length)) := by
      simp only [handle_analyzer_results, validateResults, AnalyzerResult.ofRaw,
        AnalyzerResult.validate_position_in_text, Option.getD]
      rw [if_pos hC]
    simp [AnonymizerRequest.construct, ht, hr]
  · intro h
    have hC : ¬ (s < 0 ∨ (t.length : Int) < e ∨ e ≤ s) := by omega
    have hr : handle_analyzer_results
        ({ text := some t,
           analyzer_results := some [{ start := some s, endPos := some e, score := sc,
                                       entity_type := some lbl }],
           anonymizers := none } : RawData) =
        .ok [{ start := s, endPos := e, score := sc, entity_type := lbl }] := by
      simp only [handle_analyzer_results, validateResults, AnalyzerResult.ofRaw,
        AnalyzerResult.validate_position_in_text, Option.getD]
      rw [if_neg hC]
    obtain ⟨a, ha⟩ := Option.isSome_iff_exists.mp hrep
    exact ⟨{ anonymizers := registry, _anonymizers := [],
             _analysis_results := [{ start := s, endPos := e, score := sc,
                                     entity_type := lbl }],
             _text := t,
             default_anonymizer := { type := "replace", anonymizer := a,
                                     entity_type := none, params := [] } },
      by simp [AnonymizerRequest.construct, ht, hr, handle_anonymizers, ha]⟩

theorem claim_C3_witness :
    AnonymizerRequest.construct
        { text := some "hello world",
          analyzer_results := some [{ start := some 5, endPos := some 12, score := none,
                                      entity_type := some "NAME" }],
          anonymizers := none }
        [("replace", { name := "Replace" })] =
      .error (.invalidParam
        "Invalid analyzer result, start: 5 and end: 12, while text length is only 11.") :=
  (claim_C3_out_of_bounds "hello world" 5 12 none "NAME"
      [("replace", { name := "Replace" })] (by decide) (by decide)).1 (by decide)
